import Mathlib

/-!
Verification of the `node-uri` checkers module (`lib/checkers/index.js`).

JavaScript strings are embedded as `List Char` (`JStr`); character access
`s[i]` becomes `charAt` (returning `none` for the out-of-range accesses that
yield `undefined` in JavaScript).  Loosely typed arguments are embedded as
the sum type `JSVal`.  Functions that `throw URIError` objects are embedded
as `Except Err`, where `Err` records the `code` property of the thrown error
(human-readable messages are dropped: the checkers' contract is expressed in
terms of the `code` field only).

The checkers module imports its character classifier, percent-encoding
character table, parser, IP/domain validators, punycode codec and sitemap
escape tables from sibling modules whose sources are not part of this
development; those are modelled from the specification (each such definition
carries a doc comment starting with `Modelled from the spec:`).
-/

deriving instance DecidableEq for Except

namespace NodeUri

/-- JavaScript strings as lists of characters. -/
abbrev JStr := List Char

/-- A JavaScript value as discriminated by the checkers: a string, a number,
`undefined`, or anything else (`is(String, v)` / `is(Number, v)` tests). -/
inductive JSVal where
  | vstr (s : JStr)
  | vnum (n : Int)
  | vUndefined
  | vother
deriving DecidableEq, Repr

/-- `true` exactly when the value is a string (`is(String, v)`). -/
def JSVal.isStr : JSVal → Bool
  | .vstr _ => true
  | _ => false

/-- `true` exactly when the value is a number (`is(Number, v)`). -/
def JSVal.isNum : JSVal → Bool
  | .vnum _ => true
  | _ => false

/-- A thrown `URIError`, reduced to its `code` property. -/
structure Err where
  code : String
deriving DecidableEq, Repr

/-- JavaScript bracket access `s[i]`: `none` models `undefined` (negative or
out-of-range index). -/
def charAt (s : JStr) (i : Int) : Option Char :=
  if i < 0 then none else s.get? i.toNat

/-- Modelled from the spec: character classifier `isPercentEncodingChar`
(module `checkers/chars`, not in the provided sources) — a hex digit. -/
def isPercentEncodingChar (c : Char) : Bool :=
  ('0' ≤ c && c ≤ '9') || ('A' ≤ c && c ≤ 'F') || ('a' ≤ c && c ≤ 'f')

/-- `isPercentEncodingChar(s[i])` — `undefined` fails the classifier. -/
def hexAt (s : JStr) (i : Int) : Bool :=
  match charAt s i with
  | some c => isPercentEncodingChar c
  | none => false

/-- Body of `checkPercentEncoding` (lines 50–72) after the argument
normalization: `len` and `i` are the normalized bound and index. -/
def percentCore (s : JStr) (i len : Int) : Except Err Int :=
  if len > 0 ∧ charAt s i = some '%' then
    if i + 2 < len then
      if ¬ hexAt s (i + 1) then .error ⟨"URI_INVALID_PERCENT_ENCODING"⟩
      else if ¬ hexAt s (i + 2) then .error ⟨"URI_INVALID_PERCENT_ENCODING"⟩
      else .ok 2
    else .error ⟨"URI_INVALID_PERCENT_ENCODING"⟩
  else .ok 0

/-- Normalization of the `stringLen` argument (line 46):
`is(Number, stringLen) && stringLen >= 0 ? stringLen : string.length`. -/
def effLen (s : JStr) (stringLen : JSVal) : Int :=
  match stringLen with
  | .vnum n => if n ≥ 0 then n else (s.length : Int)
  | _ => (s.length : Int)

/-- Normalization of the `index` argument (line 47):
`is(Number, index) && index < len ? index : 0`. -/
def effIdx (len : Int) (index : JSVal) : Int :=
  match index with
  | .vnum n => if n < len then n else 0
  | _ => 0

/-- `checkPercentEncoding(string, index, stringLen)` (lines 39–73). -/
def checkPercentEncoding (string index stringLen : JSVal) : Except Err Int :=
  match string with
  | .vstr s => percentCore s (effIdx (effLen s stringLen) index) (effLen s stringLen)
  | _ => .error ⟨"URI_INVALID_PERCENT_ENCODING"⟩

/-- Modelled from the spec: unreserved characters (module `checkers/chars`) —
letters, digits, `-`, `.`, `_`, `~`. -/
def isUnreserved (c : Char) : Bool :=
  c.isAlpha || c.isDigit || c == '-' || c == '.' || c == '_' || c == '~'

/-- Modelled from the spec: the RFC-3986 sub-delims set (module
`checkers/chars`). -/
def isSubDelim (c : Char) : Bool :=
  c == '!' || c == '$' || c == '&' || c == '\'' || c == '(' || c == ')' ||
  c == '*' || c == '+' || c == ',' || c == ';' || c == '='

/-- Modelled from the spec: `isSchemeChar(c, { start })` (module
`checkers/chars`) — a letter if `start`, else letter/digit/`+`/`-`/`.`. -/
def isSchemeChar (c : Char) (start : Bool) : Bool :=
  if start then c.isAlpha else c.isAlpha || c.isDigit || c == '+' || c == '-' || c == '.'

/-- Modelled from the spec: `isUserinfoChar(c)` (module `checkers/chars`) —
unreserved, sub-delims or `:`; `%` is additionally accepted since the
userinfo scan reaches `checkPercentEncoding` only after this classifier
passes (spec §3: a scan that encounters `%` consumes the triplet or fails,
so `%` itself must pass the per-character test). -/
def isUserinfoChar (c : Char) : Bool :=
  isUnreserved c || isSubDelim c || c == ':' || c == '%'

/-- Modelled from the spec: `isURIChar(c)` (module `checkers/chars`) —
unreserved, sub-delims or `:`/`@`/`/`/`?`; `#` is additionally accepted
because `pathqf` has the fragment delimiter folded in (spec §4.1
"contextual, since pathqf already has path/query/fragment delimiters folded
in"), and `%` for the same reason as in `isUserinfoChar`. -/
def isURIChar (c : Char) : Bool :=
  isUnreserved c || isSubDelim c || c == ':' || c == '@' || c == '/' ||
  c == '?' || c == '#' || c == '%'

/-- Modelled from the spec: `escapeCodesKeys` of the sitemap module — the
five fixed escape sequences (spec §4.7). -/
def escapeCodesKeys : List JStr :=
  ["&amp;".data, "&lt;".data, "&gt;".data, "&quot;".data, "&apos;".data]

/-- Modelled from the spec: `entitiesKeys` of the sitemap module — the raw
characters of the entity table (spec §4.7). -/
def entitiesKeys : List Char := ['&', '<', '>', '"', '\'']

/-- The escape lookup of `checkURI` (lines 292–300): the first escape
sequence `esc` with `i + esc.length <= s.length` that coincides with
`s.substring(i, i + esc.length)`; returns its length. -/
def matchEscapeAt (s : JStr) (i : Nat) : Option Nat :=
  match escapeCodesKeys.find? (fun esc =>
      decide (i + esc.length ≤ s.length) && ((s.drop i).take esc.length == esc)) with
  | some esc => some esc.length
  | none => none

/-- The scheme-character loop of `checkURI` (lines 224–230), by index with
explicit fuel (the index advances by one each step, so any fuel above the
string length gives the loop's behavior). -/
def scanSchemeGo (s : JStr) : Nat → Nat → Except Err Unit
  | 0, _ => .ok ()
  | fuel + 1, i =>
    if h : i < s.length then
      if isSchemeChar s[i] (i == 0) then scanSchemeGo s fuel (i + 1)
      else .error ⟨"URI_INVALID_SCHEME_CHAR"⟩
    else .ok ()

/-- The scheme-character loop of `checkURI` started at index 0. -/
def scanScheme (s : JStr) : Except Err Unit := scanSchemeGo s (s.length + 1) 0

/-- The userinfo loop of `checkURI` (lines 237–249): per-character classifier
check, then percent-encoding check, skipping the returned offset. -/
def scanUserinfoGo (s : JStr) : Nat → Nat → Except Err Unit
  | 0, _ => .ok ()
  | fuel + 1, i =>
    if h : i < s.length then
      if ¬ isUserinfoChar s[i] then .error ⟨"URI_INVALID_USERINFO_CHAR"⟩
      else
        match checkPercentEncoding (.vstr s) (.vnum i) (.vnum s.length) with
        | .error e => .error e
        | .ok off => scanUserinfoGo s fuel (i + off.toNat + 1)
    else .ok ()

/-- The userinfo loop of `checkURI` started at index 0. -/
def scanUserinfo (s : JStr) : Except Err Unit := scanUserinfoGo s (s.length + 1) 0

/-- The `pathqf` loop of `checkURI` (lines 271–315): URI-character check,
percent-encoding check (advancing by its offset), and in sitemap mode the
entity-escaping check at the advanced position: a `&` must start one of the
escape sequences (the scan then jumps over it: `i += escapeOffset - 1`
followed by the loop's `i += 1`), and any other character of the entity
table is rejected. -/
def scanPathqfGo (sitemap : Bool) (s : JStr) : Nat → Nat → Except Err Unit
  | 0, _ => .ok ()
  | fuel + 1, i =>
    if h : i < s.length then
      if ¬ isURIChar s[i] then .error ⟨"URI_INVALID_CHAR"⟩
      else
        match checkPercentEncoding (.vstr s) (.vnum i) (.vnum s.length) with
        | .error e => .error e
        | .ok off =>
          if sitemap then
            match charAt s (i + off.toNat) with
            | some c =>
              if c == '&' then
                match matchEscapeAt s (i + off.toNat) with
                | none => .error ⟨"URI_INVALID_SITEMAP_CHAR"⟩
                | some elen => scanPathqfGo sitemap s fuel (i + off.toNat + elen - 1 + 1)
              else if entitiesKeys.contains c then .error ⟨"URI_INVALID_SITEMAP_CHAR"⟩
              else scanPathqfGo sitemap s fuel (i + off.toNat + 1)
            | none => scanPathqfGo sitemap s fuel (i + off.toNat + 1)
          else scanPathqfGo sitemap s fuel (i + off.toNat + 1)
    else .ok ()

/-- The `pathqf` loop of `checkURI` started at index 0. -/
def scanPathqf (sitemap : Bool) (s : JStr) : Except Err Unit :=
  scanPathqfGo sitemap s (s.length + 1) 0

/-- Split a list at every occurrence of `sep` (auxiliary, with accumulator). -/
def splitOnCharAux (sep : Char) : JStr → JStr → List JStr
  | [], acc => [acc.reverse]
  | c :: rest, acc =>
    if c == sep then acc.reverse :: splitOnCharAux sep rest []
    else splitOnCharAux sep rest (c :: acc)

/-- Split a list at every occurrence of `sep` (like `String.prototype.split`). -/
def splitOnChar (sep : Char) (s : JStr) : List JStr := splitOnCharAux sep s []

/-- Split at the first occurrence of `sep`: `some (before, after)`, or `none`
when `sep` does not occur. -/
def splitFirstChar (sep : Char) : JStr → Option (JStr × JStr)
  | [] => none
  | c :: rest =>
    if c == sep then some ([], rest)
    else (splitFirstChar sep rest).map (fun pr => (c :: pr.1, pr.2))

/-- Split at the last occurrence of `sep`: `some (before, after)`, or `none`
when `sep` does not occur. -/
def splitAtLastChar (sep : Char) (s : JStr) : Option (JStr × JStr) :=
  match splitFirstChar sep s.reverse with
  | none => none
  | some (rtail, rinit) => some (rinit.reverse, rtail.reverse)

/-- `pre` is an initial segment of `s`. -/
def jstrStartsWith (pre s : JStr) : Bool := s.take pre.length == pre

/-- `path.startsWith('/')`. -/
def startsWithSlash (p : JStr) : Bool := p.take 1 == ['/']

/-- `path.startsWith('//')`. -/
def startsWithDoubleSlash (p : JStr) : Bool := p.take 2 == ['/', '/']

/-- Modelled from the spec: punycode constant `base = 36` (§4.4). -/
def punyBase : Nat := 36
/-- Modelled from the spec: punycode constant `tmin = 1` (§4.4). -/
def punyTmin : Nat := 1
/-- Modelled from the spec: punycode constant `tmax = 26` (§4.4). -/
def punyTmax : Nat := 26
/-- Modelled from the spec: punycode constant `skew = 38` (§4.4). -/
def punySkew : Nat := 38
/-- Modelled from the spec: punycode constant `damp = 700` (§4.4). -/
def punyDamp : Nat := 700
/-- Modelled from the spec: punycode constant `initialBias = 72` (§4.4). -/
def punyInitialBias : Nat := 72
/-- Modelled from the spec: punycode constant `initialN = 128` (§4.4). -/
def punyInitialN : Nat := 128
/-- Modelled from the spec: the overflow guard bound of the punycode codec
(§4.4 "guard against integer overflow"): the largest 32-bit signed integer. -/
def punyMaxInt : Nat := 2147483647

/-- Modelled from the spec: the division loop of `adapt` (§4.4): repeatedly
divide by `base - tmin` while `delta` exceeds `((base - tmin) * tmax) / 2`,
adding `base` to the threshold counter each round.  The loop divides `delta`
by 35 each round, so fuel 64 is far above what any `delta ≤ maxInt` needs. -/
def adaptLoop : Nat → Nat → Nat → Nat × Nat
  | 0, delta, k => (delta, k)
  | fuel + 1, delta, k =>
    if delta > ((punyBase - punyTmin) * punyTmax) / 2 then
      adaptLoop fuel (delta / (punyBase - punyTmin)) (k + punyBase)
    else (delta, k)

/-- Modelled from the spec: `adapt(delta, numPoints, firstTime)` (§4.4),
exact integer arithmetic. -/
def adapt (delta numPoints : Nat) (firstTime : Bool) : Nat :=
  let d := delta / (if firstTime then punyDamp else 2)
  let d := d + d / numPoints
  let (d, k) := adaptLoop 64 d 0
  k + ((punyBase - punyTmin + 1) * d) / (d + punySkew)

/-- Modelled from the spec: value of a generalized variable-length digit
(§4.4 "digits 0–35 mapped to a–z, 0–9"; letter case is insignificant). -/
def punyDigitVal (c : Char) : Option Nat :=
  if 'a' ≤ c ∧ c ≤ 'z' then some (c.toNat - 'a'.toNat)
  else if 'A' ≤ c ∧ c ≤ 'Z' then some (c.toNat - 'A'.toNat)
  else if '0' ≤ c ∧ c ≤ '9' then some (c.toNat - '0'.toNat + 26)
  else none

/-- Modelled from the spec: character of a digit value 0–35 (§4.4). -/
def punyEncodeDigit (d : Nat) : Char :=
  if d < 26 then Char.ofNat ('a'.toNat + d) else Char.ofNat ('0'.toNat + d - 26)

/-- Modelled from the spec: the per-codepoint digit consumer of punycode
decode (§4.4): replays the bias/threshold arithmetic, validating digit
characters and rejecting overflow and premature end of input.  Returns the
updated insertion counter and remaining input. -/
def decodeDigits : Nat → JStr → Nat → Nat → Nat → Nat → Option (Nat × JStr)
  | 0, _, _, _, _, _ => none
  | fuel + 1, inp, i, w, k, bias =>
    match inp with
    | [] => none
    | c :: rest =>
      match punyDigitVal c with
      | none => none
      | some d =>
        if d > (punyMaxInt - i) / w then none
        else
          let i' := i + d * w
          let t := if k ≤ bias + punyTmin then punyTmin
                   else if k ≥ bias + punyTmax then punyTmax
                   else k - bias
          if d < t then some (i', rest)
          else if w > punyMaxInt / (punyBase - t) then none
          else decodeDigits fuel rest i' (w * (punyBase - t)) (k + punyBase) bias

/-- Modelled from the spec: the main loop of punycode decode (§4.4): each
round consumes one digit sequence, adapts the bias, advances the codepoint
threshold `n` and inserts the reconstructed codepoint.  Each round consumes
at least one input character, so fuel above the input length suffices. -/
def decodeLoop : Nat → JStr → List Nat → Nat → Nat → Nat → Option (List Nat)
  | _, [], out, _, _, _ => some out
  | 0, _ :: _, _, _, _, _ => none
  | fuel + 1, inp, out, i, n, bias =>
    match decodeDigits 64 inp i 1 punyBase bias with
    | none => none
    | some (i', rest) =>
      let outLen1 := out.length + 1
      let bias' := adapt (i' - i) outLen1 (i == 0)
      if i' / outLen1 > punyMaxInt - n then none
      else
        let n' := n + i' / outLen1
        let ipos := i' % outLen1
        decodeLoop fuel rest (out.take ipos ++ [n'] ++ out.drop ipos) (ipos + 1) n' bias'

/-- Split a label at its last delimiter `-`: basic codepoints before it,
extended digits after; no delimiter means no basic codepoints (§4.4). -/
def splitAtLastDash (l : JStr) : JStr × JStr :=
  match splitAtLastChar '-' l with
  | some (basic, ext) => (basic, ext)
  | none => ([], l)

/-- Modelled from the spec: punycode `decode` of one label (§4.4), the
`xn--` prefix already stripped: split at the last delimiter, replay the
bias/threshold arithmetic to reconstruct insertions, failing on invalid
digits, premature end of input or overflow.  The basic prefix must be
ASCII, and reconstructed codepoints must be scalar values. -/
def punyDecodeLabel (l : JStr) : Option JStr :=
  let (basicS, ext) := splitAtLastDash l
  if basicS.all (fun c => c.toNat < 128) then
    match decodeLoop (ext.length + 1) ext (basicS.map Char.toNat) 0 punyInitialN punyInitialBias with
    | none => none
    | some cps =>
      if cps.all (fun n => n < 1114112 ∧ ¬ (55296 ≤ n ∧ n ≤ 57343)) then
        some (cps.map Char.ofNat)
      else none
  else none

/-- Modelled from the spec: the digit emitter of punycode encode (§4.4): for
`k = base, 2*base, ...` emit `t + (q - t) % (base - t)` while `q ≥ t`, then
the final digit `q`.  `q` shrinks by a factor of at least `base - tmax = 10`
per emitted digit, so fuel 64 is far above what any `q ≤ maxInt` needs. -/
def encodeInner : Nat → Nat → Nat → Nat → Option JStr
  | 0, _, _, _ => none
  | fuel + 1, q, k, bias =>
    let t := if k ≤ bias + punyTmin then punyTmin
             else if k ≥ bias + punyTmax then punyTmax
             else k - bias
    if q < t then some [punyEncodeDigit q]
    else
      match encodeInner fuel ((q - t) / (punyBase - t)) (k + punyBase) bias with
      | none => none
      | some ds => some (punyEncodeDigit (t + (q - t) % (punyBase - t)) :: ds)

/-- Modelled from the spec: the per-codepoint step of punycode encode's inner
scan (§4.4): codepoints below the current threshold increase `delta` (with
overflow guard); a codepoint equal to the threshold emits its digit sequence
and adapts the bias.  State: (output, delta, bias, handled count). -/
def encodeStep (b n : Nat) (st : Option (JStr × Nat × Nat × Nat)) (cp : Nat) :
    Option (JStr × Nat × Nat × Nat) :=
  match st with
  | none => none
  | some (out, delta, bias, h) =>
    if cp < n then
      if delta + 1 > punyMaxInt then none else some (out, delta + 1, bias, h)
    else if cp == n then
      match encodeInner 64 delta punyBase bias with
      | none => none
      | some ds => some (out ++ ds, 0, adapt delta (h + 1) (h == b), h + 1)
    else some (out, delta, bias, h)

/-- Least codepoint `≥ n` among `cps`. -/
def minCpGE (n : Nat) (cps : List Nat) : Option Nat :=
  cps.foldl (fun acc cp =>
    if cp ≥ n then
      match acc with
      | none => some cp
      | some a => some (min a cp)
    else acc) none

/-- Modelled from the spec: the main loop of punycode encode (§4.4): while
unhandled codepoints remain, jump the threshold `n` to the least remaining
codepoint (accumulating `delta` with overflow guard), scan all codepoints
with `encodeStep`, then advance `delta` and `n` by one.  Each round handles
at least one codepoint, so fuel above the codepoint count suffices. -/
def encodeLoop (cps : List Nat) (b : Nat) :
    Nat → JStr → Nat → Nat → Nat → Nat → Option JStr
  | 0, _, _, _, _, _ => none
  | fuel + 1, out, n, delta, bias, h =>
    if h ≥ cps.length then some out
    else
      match minCpGE n cps with
      | none => none
      | some m =>
        if m - n > (punyMaxInt - delta) / (h + 1) then none
        else
          match cps.foldl (encodeStep b m) (some (out, delta + (m - n) * (h + 1), bias, h)) with
          | none => none
          | some (out', delta', bias', h') =>
            encodeLoop cps b fuel out' (m + 1) (delta' + 1) bias' h'

/-- Modelled from the spec: punycode `encode` of one label (§4.4): an
all-ASCII label passes through unchanged; otherwise basic codepoints are
copied, a delimiter appended when there are any, the extended digits
emitted, and the result prefixed with `xn--`.  Overflow yields failure. -/
def punyEncodeLabel (l : JStr) : Option JStr :=
  let cps := l.map Char.toNat
  if cps.all (fun n => n < 128) then some l
  else
    let basicChars := l.filter (fun c => c.toNat < 128)
    let b := basicChars.length
    let out0 := basicChars ++ (if b > 0 then ['-'] else [])
    match encodeLoop cps b (cps.length + 1) out0 punyInitialN 0 punyInitialBias b with
    | none => none
    | some out => some ("xn--".data ++ out)

/-- Numeric value of a decimal digit string (by left fold). -/
def natOfDigits (g : JStr) : Nat :=
  g.foldl (fun a c => a * 10 + (c.toNat - '0'.toNat)) 0

/-- Modelled from the spec: one IPv4 octet group (§4.5) — non-empty decimal,
value 0–255, leading zeros invalid. -/
def ipv4Group (g : JStr) : Bool :=
  (g != []) && g.all Char.isDigit &&
  (g.length == 1 || g.take 1 != ['0']) &&
  natOfDigits g ≤ 255

/-- Modelled from the spec: the IPv4 recognizer of `isIP` (§4.5) — exactly
four dot-separated valid octet groups. -/
def isIPv4 (s : JStr) : Bool :=
  match splitOnChar '.' s with
  | [a, b, c, d] => ipv4Group a && ipv4Group b && ipv4Group c && ipv4Group d
  | _ => false

/-- Modelled from the spec: one IPv6 hex group (§4.5) — 1 to 4 hex digits. -/
def hexGroup (g : JStr) : Bool :=
  (g != []) && g.length ≤ 4 && g.all isPercentEncodingChar

/-- `s` contains three consecutive colons. -/
def hasTripleColon : JStr → Bool
  | [] => false
  | [_] => false
  | [_, _] => false
  | a :: b :: c :: rest =>
    (a == ':' && b == ':' && c == ':') || hasTripleColon (b :: c :: rest)

/-- Number of (possibly overlapping) colon pairs in `s`. -/
def countDoubleColon : JStr → Nat
  | [] => 0
  | [_] => 0
  | a :: b :: rest =>
    (if a == ':' ∧ b == ':' then 1 else 0) + countDoubleColon (b :: rest)

/-- Split at the first `::`: `(before, after)`; `s` is assumed to contain
one. -/
def splitAtDoubleColon : JStr → JStr × JStr
  | [] => ([], [])
  | [c] => ([c], [])
  | a :: b :: rest =>
    if a == ':' ∧ b == ':' then ([], rest)
    else
      let (l, r) := splitAtDoubleColon (b :: rest)
      (a :: l, r)

/-- Weight of an IPv6 group list where only the final group may be an
embedded IPv4 quad (worth two groups, §4.5); `none` on any invalid group. -/
def v6GroupsWeight : List JStr → Option Nat
  | [] => some 0
  | [g] =>
    if hexGroup g then some 1
    else if g.contains '.' then (if isIPv4 g then some 2 else none)
    else none
  | g :: rest =>
    if hexGroup g then (v6GroupsWeight rest).map (fun w => w + 1) else none

/-- Weight of an IPv6 group list with no embedded IPv4 allowed (groups left
of a `::` marker). -/
def v6GroupsWeightNoV4 (gs : List JStr) : Option Nat :=
  if gs.all hexGroup then some gs.length else none

/-- Modelled from the spec: the IPv6 recognizer of `isIP` (§4.5) — 1–8
colon-separated groups of 1–4 hex digits, at most one `::` compression
marker, optional trailing embedded IPv4 quad replacing the last two groups,
optional non-empty `%zoneid` suffix. -/
def isIPv6 (s0 : JStr) : Bool :=
  let (addr, zoneOk) :=
    match splitFirstChar '%' s0 with
    | none => (s0, true)
    | some (a, z) => (a, z != [])
  zoneOk && !hasTripleColon addr &&
  (match countDoubleColon addr with
   | 0 =>
     (match v6GroupsWeight (splitOnChar ':' addr) with
      | some w => w == 8
      | none => false)
   | 1 =>
     let (l, r) := splitAtDoubleColon addr
     let lg := if l == [] then [] else splitOnChar ':' l
     let rg := if r == [] then [] else splitOnChar ':' r
     (match v6GroupsWeightNoV4 lg, v6GroupsWeight rg with
      | some wl, some wr => wl + wr ≤ 7
      | _, _ => false)
   | _ => false)

/-- Modelled from the spec: `isIP` of the `ip` module (§4.5), collapsed to
the boolean use `checkURI` makes of it (v4 or v6 classification succeeds). -/
def isIP (s : JStr) : Bool := isIPv4 s || isIPv6 s

/-- ASCII-label character rule of the domain validator (§4.6): alphanumeric
or `-`, with `-` neither first nor last. -/
def isDomainLabelASCII (lab : JStr) : Bool :=
  lab.all (fun c => c.isAlpha || c.isDigit || c == '-') &&
  lab.take 1 != ['-'] && lab.reverse.take 1 != ['-']

/-- Modelled from the spec: per-label rule of `isDomain` (§4.6): a label
containing non-ASCII characters is accepted only if the punycode codec can
encode it without failure; a label already prefixed `xn--` only if it
decodes without failure; ASCII labels follow the alphanumeric/`-` rule. -/
def isDomainLabel (lab : JStr) : Bool :=
  if ¬ lab.all (fun c => c.toNat < 128) then (punyEncodeLabel lab).isSome
  else if jstrStartsWith "xn--".data lab then
    (punyDecodeLabel (lab.drop 4)).isSome && isDomainLabelASCII lab
  else isDomainLabelASCII lab

/-- Modelled from the spec: `isDomain` of the `domain` module (§4.6): split
on `.`; reject overall length above 253 or any label length 0 or above 63;
check each label. -/
def isDomain (s : JStr) : Bool :=
  let labels := splitOnChar '.' s
  s.length ≤ 253 &&
  labels.all (fun lab => 1 ≤ lab.length && lab.length ≤ 63) &&
  labels.all isDomainLabel

/-- Modelled from the spec: the `cast.int` helper applied to the port
(§4.8 "validates port is an integer if present"): a non-empty decimal
string casts to its value, anything else to `undefined`. -/
def intCast (s : JStr) : Option Nat :=
  if (s != []) && s.all Char.isDigit then some (natOfDigits s) else none

/-- The component record produced by `parseURI` and destructured by
`checkURISyntax` (lines 103–115); `none` models an absent (undefined)
component. -/
structure URIComponents where
  scheme : Option JStr
  authority : Option JStr
  authorityPunydecoded : Option JStr
  userinfo : Option JStr
  host : Option JStr
  hostPunydecoded : Option JStr
  port : Option JStr
  path : Option JStr
  pathqf : Option JStr
  query : Option JStr
  fragment : Option JStr
deriving DecidableEq, Repr

/-- The success record of `checkURISyntax` (lines 158–172): the components
plus `schemeLen` and `valid`. -/
structure SyntaxResult where
  scheme : JStr
  authority : Option JStr
  authorityPunydecoded : Option JStr
  userinfo : Option JStr
  host : Option JStr
  hostPunydecoded : Option JStr
  port : Option JStr
  path : JStr
  pathqf : Option JStr
  query : Option JStr
  fragment : Option JStr
  schemeLen : Nat
  valid : Bool
deriving DecidableEq, Repr

/-- The success record of `checkURI` and `checkHttpURL` (lines 317–330 and
392–405): the components plus `valid` (no `schemeLen`). -/
structure CheckResult where
  scheme : JStr
  authority : Option JStr
  authorityPunydecoded : Option JStr
  userinfo : Option JStr
  host : Option JStr
  hostPunydecoded : Option JStr
  port : Option JStr
  path : JStr
  pathqf : Option JStr
  query : Option JStr
  fragment : Option JStr
  valid : Bool
deriving DecidableEq, Repr

/-- Modelled from the spec: `splitHostPort` within the parser (§4.3 step 3):
a leading `[` signals an IPv6 literal whose matching `]` terminates the host
(brackets stripped, a following `:` starts the port); otherwise the host and
port split at the last `:`.  Returns (host, port, bracketed flag). -/
def splitHostPort (hp : JStr) : JStr × Option JStr × Bool :=
  match hp with
  | '[' :: rest =>
    (match splitFirstChar ']' rest with
     | some (inside, after) =>
       (inside, (match after with | ':' :: p => some p | _ => none), true)
     | none => (hp, none, false))
  | _ =>
    (match splitAtLastChar ':' hp with
     | some (h, p) => (h, some p, false)
     | none => (hp, none, false))

/-- Modelled from the spec: opportunistic decoding of one host label (§4.3
step 6): a label prefixed `xn--` is punycode-decoded (failure propagates);
any other label passes through unchanged. -/
def punyDecodeHostLabel (lab : JStr) : Option JStr :=
  if jstrStartsWith "xn--".data lab then punyDecodeLabel (lab.drop 4) else some lab

/-- Modelled from the spec: the punydecoded view of a (non-bracketed) host
(§4.3 step 6): every label decoded opportunistically; a failing label leaves
the whole view undefined. -/
def punyHost (h : JStr) : Option JStr :=
  match (splitOnChar '.' h).mapM punyDecodeHostLabel with
  | some labs => some (List.intercalate ['.'] labs)
  | none => none

/-- Modelled from the spec: rebuilding the authority around a replacement
host (§4.3 step 7). -/
def rebuildAuthority (ui : Option JStr) (h : JStr) (bracketed : Bool)
    (prt : Option JStr) : JStr :=
  (match ui with | some u => u ++ ['@'] | none => []) ++
  (if bracketed then '[' :: (h ++ [']']) else h) ++
  (match prt with | some p => ':' :: p | none => [])

/-- Modelled from the spec: splitting the post-authority remainder into
path, query and fragment (§4.3 step 4): the path runs to the first `?` or
`#`; the query runs to the first `#`; the fragment to the end. -/
def splitPathQF (t : JStr) : JStr × Option JStr × Option JStr :=
  let p := t.takeWhile (fun c => !(c == '?' || c == '#'))
  match t.dropWhile (fun c => !(c == '?' || c == '#')) with
  | '?' :: r2 =>
    (match r2.dropWhile (fun c => !(c == '#')) with
     | '#' :: f => (p, some (r2.takeWhile (fun c => !(c == '#'))), some f)
     | _ => (p, some r2, none))
  | '#' :: f => (p, none, some f)
  | _ => (p, none, none)

/-- `pathqf` reconstruction (§4.3 step 5): `path` + `?query` + `#fragment`. -/
def buildPathqf (p : JStr) (q f : Option JStr) : JStr :=
  p ++ (match q with | some qs => '?' :: qs | none => []) ++
  (match f with | some fs => '#' :: fs | none => [])

/-- The all-undefined component record (a string with no `:` has no scheme
and nothing else is produced). -/
def emptyComponents : URIComponents :=
  { scheme := none, authority := none, authorityPunydecoded := none,
    userinfo := none, host := none, hostPunydecoded := none, port := none,
    path := none, pathqf := none, query := none, fragment := none }

/-- Modelled from the spec: `parseURI` of the `parser` module (§4.3), which
is not in the provided sources: scheme up to the first `:`; an immediately
following `//` opens an authority extending to the next `/`, `?`, `#` or end;
within it the userinfo precedes the last `@` and host/port split per
`splitHostPort`; the remainder splits into path/query/fragment; `pathqf` is
rebuilt; the punydecoded views come from opportunistic per-label decoding.
The parser never rejects. -/
def parseURI (s : JStr) : URIComponents :=
  match splitFirstChar ':' s with
  | none => emptyComponents
  | some (sch, rest) =>
    if startsWithDoubleSlash rest then
      let afterSS := rest.drop 2
      let auth := afterSS.takeWhile (fun c => !(c == '/' || c == '?' || c == '#'))
      let tail := afterSS.dropWhile (fun c => !(c == '/' || c == '?' || c == '#'))
      let (ui, hp) :=
        match splitAtLastChar '@' auth with
        | some (u, hrest) => (some u, hrest)
        | none => (none, auth)
      let (h, prt, br) := splitHostPort hp
      let hpd := if br then some h else punyHost h
      let (p, q, f) := splitPathQF tail
      { scheme := some sch, authority := some auth,
        authorityPunydecoded :=
          (match hpd with
           | some hd => some (rebuildAuthority ui hd br prt)
           | none => none),
        userinfo := ui, host := some h, hostPunydecoded := hpd, port := prt,
        path := some p, pathqf := some (buildPathqf p q f), query := q, fragment := f }
    else
      let (p, q, f) := splitPathQF rest
      { scheme := some sch, authority := none, authorityPunydecoded := none,
        userinfo := none, host := none, hostPunydecoded := none, port := none,
        path := some p, pathqf := some (buildPathqf p q f), query := q, fragment := f }

/-- The guard of line 137: `is(String, authority) && authority.length > 0`. -/
def authNonEmpty (c : URIComponents) : Bool :=
  match c.authority with
  | some a => decide (a.length > 0)
  | none => false

/-- The tail of `checkURISyntax` after the path checks (lines 150–172): the
inconsistent-authority check (`!exists(authority) && exists(authorityPunydecoded)`)
and the construction of the success record. -/
def syntaxTail (c : URIComponents) (sch p : JStr) : Except Err SyntaxResult :=
  if c.authority = none ∧ c.authorityPunydecoded ≠ none then
    .error ⟨"URI_INVALID_HOST"⟩
  else
    .ok { scheme := sch, authority := c.authority,
          authorityPunydecoded := c.authorityPunydecoded,
          userinfo := c.userinfo, host := c.host,
          hostPunydecoded := c.hostPunydecoded, port := c.port,
          path := p, pathqf := c.pathqf, query := c.query,
          fragment := c.fragment, schemeLen := sch.length, valid := true }

/-- The body of `checkURISyntax` after `parseURI` (lines 116–172), over the
parsed component record. -/
def checkURISyntaxCore (c : URIComponents) : Except Err SyntaxResult :=
  match c.scheme with
  | none => .error ⟨"URI_MISSING_SCHEME"⟩
  | some sch =>
    if sch.length = 0 then .error ⟨"URI_EMPTY_SCHEME"⟩
    else
      match c.path with
      | none => .error ⟨"URI_MISSING_PATH"⟩
      | some p =>
        if authNonEmpty c then
          if ¬ (p = [] ∨ startsWithSlash p) then .error ⟨"URI_INVALID_PATH"⟩
          else syntaxTail c sch p
        else if startsWithDoubleSlash p then .error ⟨"URI_INVALID_PATH"⟩
        else syntaxTail c sch p

/-- `checkURISyntax(uri)` (lines 93–173): the `is(String, uri)` type check
followed by parsing and the syntax checks. -/
def checkURISyntax (uri : JSVal) : Except Err SyntaxResult :=
  match uri with
  | .vstr s => checkURISyntaxCore (parseURI s)
  | _ => .error ⟨"URI_INVALID_TYPE"⟩

/-- `isIP` applied to a possibly-undefined host (`isIP(undefined)` is
falsy). -/
def isIPOpt : Option JStr → Bool
  | some h => isIP h
  | none => false

/-- `isDomain` applied to a possibly-undefined host. -/
def isDomainOpt : Option JStr → Bool
  | some h => isDomain h
  | none => false

/-- The authority stage of `checkURI` (lines 233–264): when the authority
exists, scan the userinfo, require the host to be an IP or a domain, and
require a numeric port when one exists. -/
def authorityStage (r : SyntaxResult) : Except Err Unit :=
  if r.authority ≠ none then
    match scanUserinfo (r.userinfo.getD []) with
    | .error e => .error e
    | .ok _ =>
      if ¬ isIPOpt r.host ∧ ¬ isDomainOpt r.host then .error ⟨"URI_INVALID_HOST"⟩
      else
        match r.port with
        | some prt => if intCast prt = none then .error ⟨"URI_INVALID_PORT"⟩ else .ok ()
        | none => .ok ()
  else .ok ()

/-- The success record of `checkURI` built from the syntax record (lines
317–330). -/
def toCheckResult (r : SyntaxResult) : CheckResult :=
  { scheme := r.scheme, authority := r.authority,
    authorityPunydecoded := r.authorityPunydecoded, userinfo := r.userinfo,
    host := r.host, hostPunydecoded := r.hostPunydecoded, port := r.port,
    path := r.path, pathqf := r.pathqf, query := r.query,
    fragment := r.fragment, valid := true }

/-- The body of `checkURI` (lines 205–331) over the parsed component record:
syntax checks, scheme characters, authority internals, then the `pathqf`
scan (with the sitemap entity checks when requested). -/
def checkURICore (sitemap : Bool) (c : URIComponents) : Except Err CheckResult :=
  match checkURISyntaxCore c with
  | .error e => .error e
  | .ok r =>
    match scanScheme r.scheme with
    | .error e => .error e
    | .ok _ =>
      match authorityStage r with
      | .error e => .error e
      | .ok _ =>
        match scanPathqf sitemap (r.pathqf.getD []) with
        | .error e => .error e
        | .ok _ => .ok (toCheckResult r)

/-- `checkURI(uri, { sitemap })` (lines 205–331); the `sitemap === true`
coercion is pre-applied (the option is a boolean here). -/
def checkURI (uri : JSVal) (sitemap : Bool) : Except Err CheckResult :=
  match uri with
  | .vstr s => checkURICore sitemap (parseURI s)
  | _ => .error ⟨"URI_INVALID_TYPE"⟩

/-- The options record of `checkHttpURL` — the recognized keys, each
defaulting to false (spec §6, §9; `=== true` collapses non-boolean values
to `false`). -/
structure HttpOpts where
  https : Bool := false
  web : Bool := false
  sitemap : Bool := false
deriving DecidableEq, Repr

/-- The scheme allow-list of `checkHttpURL` (lines 356–364): `https` alone
when `https === true`, else both when `web === true`, else `http` alone. -/
def schemesToCheck (o : HttpOpts) : List JStr :=
  if o.https then ["https".data]
  else if o.web then ["http".data, "https".data]
  else ["http".data]

/-- The body of `checkHttpURL` (lines 355–406) over the parsed component
record: `checkURI`, then the scheme allow-list, then the authority-required
check. -/
def checkHttpURLCore (o : HttpOpts) (c : URIComponents) : Except Err CheckResult :=
  match checkURICore o.sitemap c with
  | .error e => .error e
  | .ok r =>
    if ¬ (schemesToCheck o).contains r.scheme then .error ⟨"URI_INVALID_SCHEME"⟩
    else if r.authority = none then .error ⟨"URI_MISSING_AUTHORITY"⟩
    else .ok r

/-- `checkHttpURL(uri, { https, web, sitemap })` (lines 355–406). -/
def checkHttpURL (uri : JSVal) (o : HttpOpts) : Except Err CheckResult :=
  match uri with
  | .vstr s => checkHttpURLCore o (parseURI s)
  | _ => .error ⟨"URI_INVALID_TYPE"⟩

/-- `checkHttpsURL(uri)` (lines 419–421). -/
def checkHttpsURL (uri : JSVal) : Except Err CheckResult :=
  checkHttpURL uri { https := true }

/-- `checkHttpSitemapURL(uri)` (lines 443–445). -/
def checkHttpSitemapURL (uri : JSVal) : Except Err CheckResult :=
  checkHttpURL uri { sitemap := true }

/-- `checkHttpsSitemapURL(uri)` (lines 457–459). -/
def checkHttpsSitemapURL (uri : JSVal) : Except Err CheckResult :=
  checkHttpURL uri { https := true, sitemap := true }

/-- `checkWebURL(uri)` (lines 472–474). -/
def checkWebURL (uri : JSVal) : Except Err CheckResult :=
  checkHttpURL uri { web := true }

/-- `checkSitemapURL(uri)` (lines 487–489). -/
def checkSitemapURL (uri : JSVal) : Except Err CheckResult :=
  checkHttpURL uri { web := true, sitemap := true }

/-- The enumerated failure kinds of the checkers (spec §7). -/
def errorCodes : List String :=
  ["URI_INVALID_TYPE", "URI_MISSING_SCHEME", "URI_EMPTY_SCHEME",
   "URI_MISSING_PATH", "URI_INVALID_PATH", "URI_INVALID_HOST",
   "URI_INVALID_SCHEME_CHAR", "URI_INVALID_USERINFO_CHAR", "URI_INVALID_PORT",
   "URI_INVALID_CHAR", "URI_INVALID_SITEMAP_CHAR",
   "URI_INVALID_PERCENT_ENCODING", "URI_MISSING_AUTHORITY",
   "URI_INVALID_SCHEME"]

/-- With a numeric in-range index and a numeric non-negative bound, the
argument normalization of `checkPercentEncoding` is the identity. -/
theorem checkPercentEncoding_norm (s : JStr) (i len : Int)
    (hlen : 0 ≤ len) (hi : i < len) :
    checkPercentEncoding (.vstr s) (.vnum i) (.vnum len) = percentCore s i len := by
  simp [checkPercentEncoding, effLen, effIdx, hlen, hi]

/-- C1: for `0 ≤ i < len ≤ s.length`, `checkPercentEncoding(s, i, len)`
returns 0 when `s[i]` is not `%`; when `s[i]` is `%` it returns 2 exactly
when `i+2 < len` and the two following characters are hex digits, and
otherwise throws `URI_INVALID_PERCENT_ENCODING`; in particular it fails on
`"%"`, `"%A"`, `"%GG"`, `"%2G"` and returns 2 on `"%20"` and on `"%C3%BC"`
at indices 0 and 3. -/
theorem checkPercentEncoding_claim (s : JStr) (i len : Int)
    (h0 : 0 ≤ i) (h1 : i < len) (_h2 : len ≤ (s.length : Int)) :
    (charAt s i ≠ some '%' →
      checkPercentEncoding (.vstr s) (.vnum i) (.vnum len) = .ok 0) ∧
    (charAt s i = some '%' →
      (checkPercentEncoding (.vstr s) (.vnum i) (.vnum len) = .ok 2 ↔
        (i + 2 < len ∧ hexAt s (i + 1) = true ∧ hexAt s (i + 2) = true)) ∧
      (¬ (i + 2 < len ∧ hexAt s (i + 1) = true ∧ hexAt s (i + 2) = true) →
        checkPercentEncoding (.vstr s) (.vnum i) (.vnum len) =
          .error ⟨"URI_INVALID_PERCENT_ENCODING"⟩)) ∧
    (checkPercentEncoding (.vstr "%".data) .vUndefined .vUndefined =
        .error ⟨"URI_INVALID_PERCENT_ENCODING"⟩ ∧
     checkPercentEncoding (.vstr "%A".data) .vUndefined .vUndefined =
        .error ⟨"URI_INVALID_PERCENT_ENCODING"⟩ ∧
     checkPercentEncoding (.vstr "%GG".data) .vUndefined .vUndefined =
        .error ⟨"URI_INVALID_PERCENT_ENCODING"⟩ ∧
     checkPercentEncoding (.vstr "%2G".data) .vUndefined .vUndefined =
        .error ⟨"URI_INVALID_PERCENT_ENCODING"⟩ ∧
     checkPercentEncoding (.vstr "%20".data) .vUndefined .vUndefined = .ok 2 ∧
     checkPercentEncoding (.vstr "%C3%BC".data) (.vnum 0) .vUndefined = .ok 2 ∧
     checkPercentEncoding (.vstr "%C3%BC".data) (.vnum 3) .vUndefined = .ok 2) := by
  have hlen : (0 : Int) ≤ len := le_of_lt (lt_of_le_of_lt h0 h1)
  have hnorm := checkPercentEncoding_norm s i len hlen h1
  refine ⟨?_, ?_, by decide, by decide, by decide, by decide, by decide, by decide, by decide⟩
  · intro hne
    rw [hnorm]
    unfold percentCore
    rw [if_neg]
    rintro ⟨-, hc⟩
    exact hne hc
  · intro hpc
    have hpos : len > 0 := lt_of_le_of_lt h0 h1
    constructor
    · rw [hnorm]
      unfold percentCore
      rw [if_pos ⟨hpos, hpc⟩]
      constructor
      · intro hok
        by_cases hlt : i + 2 < len
        · rw [if_pos hlt] at hok
          by_cases hx1 : hexAt s (i + 1)
          · by_cases hx2 : hexAt s (i + 2)
            · exact ⟨hlt, hx1, hx2⟩
            · simp [hx1, hx2] at hok
          · simp [hx1] at hok
        · rw [if_neg hlt] at hok
          exact absurd hok (by simp)
      · rintro ⟨hlt, hx1, hx2⟩
        rw [if_pos hlt]
        simp [hx1, hx2]
    · intro hno
      rw [hnorm]
      unfold percentCore
      rw [if_pos ⟨hpos, hpc⟩]
      by_cases hlt : i + 2 < len
      · rw [if_pos hlt]
        by_cases hx1 : hexAt s (i + 1)
        · by_cases hx2 : hexAt s (i + 2)
          · exact absurd ⟨hlt, hx1, hx2⟩ hno
          · simp [hx1, hx2]
        · simp [hx1]
      · rw [if_neg hlt]

/-- C1 witness: the claim instantiated at `s = "%20"`, `i = 0`, `len = 3`. -/
theorem checkPercentEncoding_claim_witness :
    checkPercentEncoding (.vstr "%20".data) (.vnum 0) (.vnum 3) = .ok 2 :=
  (((checkPercentEncoding_claim "%20".data 0 3 (by decide) (by decide)
      (by decide)).2.1 (by decide)).1).mpr (by decide)

/-- C9: the tolerant argument normalization of `checkPercentEncoding`: a
non-string first argument throws `URI_INVALID_PERCENT_ENCODING`; a
non-numeric or out-of-bounds (`index ≥ len`) index behaves like index 0; a
non-numeric or negative `stringLen` behaves like the full string length; and
on the empty string the function returns 0. -/
theorem checkPercentEncoding_lax :
    (∀ (v i l : JSVal), v.isStr = false →
       checkPercentEncoding v i l = .error ⟨"URI_INVALID_PERCENT_ENCODING"⟩) ∧
    (∀ (s : JStr) (idx sl : JSVal), idx.isNum = false →
       checkPercentEncoding (.vstr s) idx sl = checkPercentEncoding (.vstr s) (.vnum 0) sl) ∧
    (∀ (s : JStr) (n : Int) (sl : JSVal), effLen s sl ≤ n →
       checkPercentEncoding (.vstr s) (.vnum n) sl = checkPercentEncoding (.vstr s) (.vnum 0) sl) ∧
    (∀ (s : JStr) (idx sl : JSVal), sl.isNum = false →
       checkPercentEncoding (.vstr s) idx sl = checkPercentEncoding (.vstr s) idx (.vnum s.length)) ∧
    (∀ (s : JStr) (idx : JSVal) (m : Int), m < 0 →
       checkPercentEncoding (.vstr s) idx (.vnum m) = checkPercentEncoding (.vstr s) idx (.vnum s.length)) ∧
    (∀ (idx sl : JSVal), checkPercentEncoding (.vstr []) idx sl = .ok 0) := by
  refine ⟨?_, ?_, ?_, ?_, ?_, ?_⟩
  · intro v i l hv
    cases v <;> simp_all [JSVal.isStr, checkPercentEncoding]
  · intro s idx sl hidx
    have h0 : effIdx (effLen s sl) idx = 0 := by
      cases idx <;> simp_all [JSVal.isNum, effIdx]
    have h0' : effIdx (effLen s sl) (.vnum 0) = 0 := by
      show (if (0 : Int) < effLen s sl then (0 : Int) else 0) = 0
      split <;> rfl
    simp [checkPercentEncoding, h0, h0']
  · intro s n sl hn
    have h0 : effIdx (effLen s sl) (.vnum n) = 0 := by
      simp [effIdx, not_lt.mpr hn]
    have h0' : effIdx (effLen s sl) (.vnum 0) = 0 := by
      show (if (0 : Int) < effLen s sl then (0 : Int) else 0) = 0
      split <;> rfl
    simp [checkPercentEncoding, h0, h0']
  · intro s idx sl hsl
    have h : effLen s sl = (s.length : Int) := by
      cases sl <;> simp_all [JSVal.isNum, effLen]
    have h' : effLen s (.vnum (s.length : Int)) = (s.length : Int) := by
      simp [effLen]
    simp [checkPercentEncoding, h, h']
  · intro s idx m hm
    have h : effLen s (.vnum m) = (s.length : Int) := by
      simp [effLen, not_le.mpr hm]
    have h' : effLen s (.vnum (s.length : Int)) = (s.length : Int) := by
      simp [effLen]
    simp [checkPercentEncoding, h, h']
  · intro idx sl
    have : ∀ j : Int, charAt ([] : JStr) j = none := by
      intro j
      unfold charAt
      split
      · rfl
      · simp
    simp [checkPercentEncoding, percentCore, this]

/-- C9 witness: the first conjunct at the concrete value `undefined`. -/
theorem checkPercentEncoding_lax_witness :
    checkPercentEncoding .vUndefined .vUndefined .vUndefined =
      .error ⟨"URI_INVALID_PERCENT_ENCODING"⟩ :=
  checkPercentEncoding_lax.1 .vUndefined .vUndefined .vUndefined rfl

/-- The result is a success (`valid` record rather than a thrown error). -/
def exOk {α : Type} : Except Err α → Bool
  | .ok _ => true
  | .error _ => false

/-- Unfolding `checkHttpURLCore` past a successful `checkURI`. -/
theorem checkHttpURLCore_ok_step (o : HttpOpts) (c : URIComponents) (r : CheckResult)
    (h : checkURICore o.sitemap c = .ok r) :
    checkHttpURLCore o c =
      (if ¬ (schemesToCheck o).contains r.scheme then .error ⟨"URI_INVALID_SCHEME"⟩
       else if r.authority = none then .error ⟨"URI_MISSING_AUTHORITY"⟩
       else .ok r) := by
  unfold checkHttpURLCore
  rw [h]

/-- C6: each named alias behaves identically (same success record or same
thrown error) to `checkHttpURL` at its fixed option preset: `{https}` for
`checkHttpsURL`, `{sitemap}` for `checkHttpSitemapURL`, `{https, sitemap}`
for `checkHttpsSitemapURL`, `{web}` for `checkWebURL`, and `{web, sitemap}`
for `checkSitemapURL`. -/
theorem alias_presets (u : JSVal) :
    checkHttpsURL u = checkHttpURL u { https := true } ∧
    checkHttpSitemapURL u = checkHttpURL u { sitemap := true } ∧
    checkHttpsSitemapURL u = checkHttpURL u { https := true, sitemap := true } ∧
    checkWebURL u = checkHttpURL u { web := true } ∧
    checkSitemapURL u = checkHttpURL u { web := true, sitemap := true } :=
  ⟨rfl, rfl, rfl, rfl, rfl⟩

/-- C10: the `https` option takes precedence over `web`: with both set the
allow-list is `https` alone (never the union), so an otherwise valid `http`
URL is rejected with `URI_INVALID_SCHEME` under the combined options. -/
theorem https_overrides_web :
    (∀ o : HttpOpts, o.https = true → schemesToCheck o = ["https".data]) ∧
    (∀ s : Bool, "http".data ∉ schemesToCheck { https := true, web := true, sitemap := s }) ∧
    (∀ (u : JSVal) (o : HttpOpts) (r : CheckResult), o.https = true →
       checkURI u o.sitemap = .ok r → r.scheme = "http".data →
       checkHttpURL u o = .error ⟨"URI_INVALID_SCHEME"⟩) ∧
    checkHttpURL (.vstr "http://example.com/".data) { https := true, web := true } =
      .error ⟨"URI_INVALID_SCHEME"⟩ ∧
    exOk (checkHttpURL (.vstr "http://example.com/".data) {}) = true := by
  have hschemes : ∀ o : HttpOpts, o.https = true → schemesToCheck o = ["https".data] := by
    intro o h
    simp [schemesToCheck, h]
  refine ⟨hschemes, ?_, ?_, by decide, by decide⟩
  · intro s
    rw [hschemes { https := true, web := true, sitemap := s } rfl]
    decide
  · intro u o r h hok hsch
    cases u with
    | vstr s =>
      have hok' : checkURICore o.sitemap (parseURI s) = .ok r := hok
      have hcont : (schemesToCheck o).contains r.scheme = false := by
        rw [hschemes o h, hsch]
        decide
      show checkHttpURLCore o (parseURI s) = _
      rw [checkHttpURLCore_ok_step o (parseURI s) r hok', if_pos (by simpa using hcont)]
    | vnum n => exact absurd hok (by simp [checkURI])
    | vUndefined => exact absurd hok (by simp [checkURI])
    | vother => exact absurd hok (by simp [checkURI])

/-- C10 witness: the rejection conjunct at `http://example.com/` with both
options set. -/
theorem https_overrides_web_witness :
    checkHttpURL (.vstr "http://example.com/".data)
      { https := true, web := true, sitemap := false } =
        .error ⟨"URI_INVALID_SCHEME"⟩ :=
  https_overrides_web.2.2.1 (.vstr "http://example.com/".data)
    { https := true, web := true, sitemap := false }
    { scheme := "http".data, authority := some "example.com".data,
      authorityPunydecoded := some "example.com".data, userinfo := none,
      host := some "example.com".data, hostPunydecoded := some "example.com".data,
      port := none, path := "/".data, pathqf := some "/".data, query := none,
      fragment := none, valid := true }
    rfl (by decide) rfl

/-- C5: `checkHttpURL(uri, opts)` succeeds exactly when `checkURI` succeeds
with `opts.sitemap`, the scheme is in the allow-list (`http` by default,
`https` under `{https}`, either under `{web}`), and the authority is a
present string; a scheme outside the list throws `URI_INVALID_SCHEME` and a
missing authority `URI_MISSING_AUTHORITY`; `checkURISyntax` accepts
`"mailto:"` but `checkHttpURL("mailto:")` throws `URI_INVALID_SCHEME`. -/
theorem checkHttpURL_spec :
    (∀ (u : JSVal) (o : HttpOpts) (r : CheckResult),
       checkHttpURL u o = .ok r ↔
         (checkURI u o.sitemap = .ok r ∧
          (schemesToCheck o).contains r.scheme = true ∧ r.authority ≠ none)) ∧
    (∀ (u : JSVal) (o : HttpOpts) (r : CheckResult),
       checkURI u o.sitemap = .ok r → (schemesToCheck o).contains r.scheme = false →
       checkHttpURL u o = .error ⟨"URI_INVALID_SCHEME"⟩) ∧
    (∀ (u : JSVal) (o : HttpOpts) (r : CheckResult),
       checkURI u o.sitemap = .ok r → (schemesToCheck o).contains r.scheme = true →
       r.authority = none → checkHttpURL u o = .error ⟨"URI_MISSING_AUTHORITY"⟩) ∧
    (∀ s : Bool, schemesToCheck { https := false, web := false, sitemap := s } =
       ["http".data]) ∧
    (∀ s : Bool, schemesToCheck { https := true, web := false, sitemap := s } =
       ["https".data]) ∧
    (∀ s : Bool, schemesToCheck { https := false, web := true, sitemap := s } =
       ["http".data, "https".data]) ∧
    exOk (checkURISyntax (.vstr "mailto:".data)) = true ∧
    checkHttpURL (.vstr "mailto:".data) {} = .error ⟨"URI_INVALID_SCHEME"⟩ := by
  refine ⟨?_, ?_, ?_, by intro s; rfl, by intro s; rfl, by intro s; rfl, by decide, by decide⟩
  · intro u o r
    cases u with
    | vstr s =>
      show checkHttpURLCore o (parseURI s) = .ok r ↔
        (checkURICore o.sitemap (parseURI s) = .ok r ∧ _ ∧ _)
      unfold checkHttpURLCore
      cases hc : checkURICore o.sitemap (parseURI s) with
      | error e => simp
      | ok r' =>
        by_cases hcont : (schemesToCheck o).contains r'.scheme = true
        · by_cases hauth : r'.authority = none
          · simp only [hcont, hauth]
            constructor
            · intro habs
              simp at habs
            · rintro ⟨hrr, -, hne⟩
              cases hrr
              exact absurd hauth hne
          · simp only [hcont, hauth]
            constructor
            · intro hok
              simp at hok
              cases hok
              exact ⟨rfl, hcont, hauth⟩
            · rintro ⟨hrr, -, -⟩
              cases hrr
              simp
        · simp only [Bool.not_eq_true] at hcont
          simp only [hcont]
          constructor
          · intro habs
            simp at habs
          · rintro ⟨hrr, hco, -⟩
            cases hrr
            rw [hcont] at hco
            cases hco
    | vnum n => simp [checkHttpURL, checkURI]
    | vUndefined => simp [checkHttpURL, checkURI]
    | vother => simp [checkHttpURL, checkURI]
  · intro u o r hok hcont
    cases u with
    | vstr s =>
      have hok' : checkURICore o.sitemap (parseURI s) = .ok r := hok
      show checkHttpURLCore o (parseURI s) = _
      rw [checkHttpURLCore_ok_step o (parseURI s) r hok', if_pos (by simpa using hcont)]
    | vnum n => exact absurd hok (by simp [checkURI])
    | vUndefined => exact absurd hok (by simp [checkURI])
    | vother => exact absurd hok (by simp [checkURI])
  · intro u o r hok hcont hauth
    cases u with
    | vstr s =>
      have hok' : checkURICore o.sitemap (parseURI s) = .ok r := hok
      show checkHttpURLCore o (parseURI s) = _
      rw [checkHttpURLCore_ok_step o (parseURI s) r hok', if_neg (by simpa using hcont),
        if_pos hauth]
    | vnum n => exact absurd hok (by simp [checkURI])
    | vUndefined => exact absurd hok (by simp [checkURI])
    | vother => exact absurd hok (by simp [checkURI])

/-- C5 witness: the scheme-rejection conjunct instantiated at `mailto:`,
whose `checkURI` succeeds with the scheme `mailto` outside the default
allow-list. -/
theorem checkHttpURL_spec_witness :
    checkHttpURL (.vstr "mailto:".data) { https := false, web := false, sitemap := false } =
      .error ⟨"URI_INVALID_SCHEME"⟩ :=
  checkHttpURL_spec.2.1 (.vstr "mailto:".data)
    { https := false, web := false, sitemap := false }
    { scheme := "mailto".data, authority := none, authorityPunydecoded := none,
      userinfo := none, host := none, hostPunydecoded := none, port := none,
      path := [], pathqf := some [], query := none, fragment := none,
      valid := true }
    (by decide) (by decide)

/-- An error thrown by `syntaxTail` always carries `URI_INVALID_HOST`. -/
theorem syntaxTail_error_code (c : URIComponents) (sch p : JStr) (e : Err)
    (h : syntaxTail c sch p = .error e) : e.code = "URI_INVALID_HOST" := by
  unfold syntaxTail at h
  split at h
  · injection h with h2
    rw [← h2]
  · exact Except.noConfusion h

/-- `syntaxTail` throws (`URI_INVALID_HOST`) exactly on the inconsistent
authority configuration. -/
theorem syntaxTail_invalid_host_iff (c : URIComponents) (sch p : JStr) :
    (∃ e, syntaxTail c sch p = .error e ∧ e.code = "URI_INVALID_HOST") ↔
      (c.authority = none ∧ c.authorityPunydecoded ≠ none) := by
  unfold syntaxTail
  split
  · next hcond =>
    constructor
    · intro _
      exact hcond
    · intro _
      exact ⟨⟨"URI_INVALID_HOST"⟩, rfl, rfl⟩
  · next hcond =>
    constructor
    · rintro ⟨e, he, -⟩
      exact Except.noConfusion he
    · intro hc
      exact absurd hc hcond

/-- A `true` authority-non-empty guard means the authority is present. -/
theorem authNonEmpty_ne_none (c : URIComponents) (h : authNonEmpty c = true) :
    c.authority ≠ none := by
  unfold authNonEmpty at h
  cases hc : c.authority with
  | none => rw [hc] at h; cases h
  | some a => simp [hc]

/-- The parse of `http://a//b`: non-empty authority `a`, path `//b`. -/
def c2Components : URIComponents :=
  { scheme := some "http".data, authority := some "a".data,
    authorityPunydecoded := some "a".data, userinfo := none,
    host := some "a".data, hostPunydecoded := some "a".data, port := none,
    path := some "//b".data, pathqf := some "//b".data, query := none,
    fragment := none }

/-- C2 counterexample: `parseURI("http://a//b")` yields the non-empty
authority `a` together with the path `//b`, which begins with two slashes,
yet `checkURISyntax` succeeds — it does not throw `URI_INVALID_PATH` as the
claim requires for a path not starting with exactly one `/`. -/
theorem checkURISyntax_acceptsDoubleSlashPath :
    parseURI "http://a//b".data = c2Components ∧
    checkURISyntax (.vstr "http://a//b".data) =
      .ok { scheme := "http".data, authority := some "a".data,
            authorityPunydecoded := some "a".data, userinfo := none,
            host := some "a".data, hostPunydecoded := some "a".data,
            port := none, path := "//b".data, pathqf := some "//b".data,
            query := none, fragment := none, schemeLen := 4, valid := true } := by
  constructor
  · decide
  · decide

/-- C2 (amended): for a parse with a non-empty scheme and a string path,
`checkURISyntax` throws `URI_INVALID_PATH` exactly when the path is neither
empty nor starts with `/` (authority present and non-empty), respectively
starts with `//` (authority absent or empty); a path beginning `//` is
accepted whenever a non-empty authority is present. -/
theorem checkURISyntax_path_rule (c : URIComponents) (sch p : JStr)
    (hs : c.scheme = some sch) (hne : sch ≠ []) (hp : c.path = some p) :
    (∃ e, checkURISyntaxCore c = .error e ∧ e.code = "URI_INVALID_PATH") ↔
      (if authNonEmpty c then ¬ (p = [] ∨ startsWithSlash p = true)
       else startsWithDoubleSlash p = true) := by
  have hlen : ¬ sch.length = 0 := by
    simpa [List.length_eq_zero] using hne
  unfold checkURISyntaxCore
  rw [hs]
  simp only [hlen, if_false, hp]
  by_cases hA : authNonEmpty c = true
  · simp only [hA, if_true]
    by_cases hcond : (p = [] ∨ startsWithSlash p = true)
    · rw [if_neg (not_not_intro hcond)]
      constructor
      · rintro ⟨e, he, hcode⟩
        exact absurd (syntaxTail_error_code c sch p e he) (by rw [hcode]; decide)
      · intro hno
        exact absurd hcond hno
    · rw [if_pos hcond]
      constructor
      · intro _
        exact hcond
      · intro _
        exact ⟨⟨"URI_INVALID_PATH"⟩, rfl, rfl⟩
  · simp only [Bool.not_eq_true] at hA
    simp only [hA, Bool.false_eq_true, if_false]
    by_cases hds : startsWithDoubleSlash p = true
    · rw [if_pos hds]
      constructor
      · intro _
        exact hds
      · intro _
        exact ⟨⟨"URI_INVALID_PATH"⟩, rfl, rfl⟩
    · rw [if_neg hds]
      constructor
      · rintro ⟨e, he, hcode⟩
        exact absurd (syntaxTail_error_code c sch p e he) (by rw [hcode]; decide)
      · intro habs
        exact absurd habs hds

/-- C2 witness: the amended rule instantiated at a parse with authority `a`
and path `x` (neither empty nor slash-led), which is rejected. -/
theorem checkURISyntax_path_rule_witness :
    ∃ e, checkURISyntaxCore
        { scheme := some "http".data, authority := some "a".data,
          authorityPunydecoded := some "a".data, userinfo := none,
          host := some "a".data, hostPunydecoded := some "a".data, port := none,
          path := some "x".data, pathqf := some "x".data, query := none,
          fragment := none } = .error e ∧ e.code = "URI_INVALID_PATH" :=
  (checkURISyntax_path_rule
    { scheme := some "http".data, authority := some "a".data,
      authorityPunydecoded := some "a".data, userinfo := none,
      host := some "a".data, hostPunydecoded := some "a".data, port := none,
      path := some "x".data, pathqf := some "x".data, query := none,
      fragment := none }
    "http".data "x".data rfl (by decide) rfl).mpr (by decide)

/-- C3: `checkURISyntax` throws `URI_INVALID_HOST` exactly for component
records with no authority but a present punydecoded authority view, the
earlier stages (scheme present and non-empty, path present and not starting
`//` — the checks that precede it in the fail-fast order) passing; in
particular that inconsistency is the only condition under which
`checkURISyntax` itself throws `URI_INVALID_HOST`. -/
theorem checkURISyntaxCore_invalid_host_iff (c : URIComponents) :
    (∃ e, checkURISyntaxCore c = .error e ∧ e.code = "URI_INVALID_HOST") ↔
      (c.authority = none ∧ c.authorityPunydecoded ≠ none ∧
       (∃ sch, c.scheme = some sch ∧ sch ≠ []) ∧
       (∃ p, c.path = some p ∧ startsWithDoubleSlash p = false)) := by
  unfold checkURISyntaxCore
  cases hsch : c.scheme with
  | none =>
    constructor
    · rintro ⟨e, he, hcode⟩
      injection he with h2
      rw [← h2] at hcode
      exact absurd hcode (by decide)
    · rintro ⟨-, -, ⟨sch, hs, -⟩, -⟩
      exact Option.noConfusion hs
  | some sch =>
    by_cases hlen : sch.length = 0
    · simp only [hlen, if_true]
      constructor
      · rintro ⟨e, he, hcode⟩
        injection he with h2
        rw [← h2] at hcode
        exact absurd hcode (by decide)
      · rintro ⟨-, -, ⟨sch', hs', hne'⟩, -⟩
        injection hs' with h3
        rw [← h3] at hne'
        exact absurd (List.length_eq_zero.mp hlen) hne'
    · simp only [hlen, if_false]
      cases hpath : c.path with
      | none =>
        constructor
        · rintro ⟨e, he, hcode⟩
          injection he with h2
          rw [← h2] at hcode
          exact absurd hcode (by decide)
        · rintro ⟨-, -, -, ⟨p, hp, -⟩⟩
          exact Option.noConfusion hp
      | some p =>
        by_cases hA : authNonEmpty c = true
        · simp only [hA, if_true]
          have hane := authNonEmpty_ne_none c hA
          by_cases hcond : ¬ (p = [] ∨ startsWithSlash p = true)
          · rw [if_pos hcond]
            constructor
            · rintro ⟨e, he, hcode⟩
              injection he with h2
              rw [← h2] at hcode
              exact absurd hcode (by decide)
            · rintro ⟨ha, -, -, -⟩
              exact absurd ha hane
          · rw [if_neg hcond]
            constructor
            · intro hex
              exact absurd ((syntaxTail_invalid_host_iff c sch p).mp hex).1 hane
            · rintro ⟨ha, -, -, -⟩
              exact absurd ha hane
        · simp only [Bool.not_eq_true] at hA
          simp only [hA, Bool.false_eq_true, if_false]
          by_cases hds : startsWithDoubleSlash p = true
          · rw [if_pos hds]
            constructor
            · rintro ⟨e, he, hcode⟩
              injection he with h2
              rw [← h2] at hcode
              exact absurd hcode (by decide)
            · rintro ⟨-, -, -, ⟨p', hp', hds'⟩⟩
              injection hp' with h3
              rw [← h3] at hds'
              rw [hds] at hds'
              exact Bool.noConfusion hds'
          · rw [if_neg hds]
            rw [syntaxTail_invalid_host_iff c sch p]
            constructor
            · rintro ⟨ha, hapd⟩
              exact ⟨ha, hapd, ⟨sch, rfl, fun hnil => hlen (by rw [hnil]; rfl)⟩,
                ⟨p, rfl, Bool.not_eq_true _ ▸ hds⟩⟩
            · rintro ⟨ha, hapd, -, -⟩
              exact ⟨ha, hapd⟩

/-- C4: for any uri that passes `checkURISyntax`, whose scheme and userinfo
characters all pass their scans, and whose authority is present, a host
satisfying neither `isIP` nor `isDomain` makes `checkURI` throw
`URI_INVALID_HOST`; the IP and domain validators only report booleans (their
embedded types return `Bool`) and `checkURI` performs the translation into
the thrown error. -/
theorem checkURI_invalid_host (u : JSVal) (sm : Bool) (r : SyntaxResult)
    (hsyn : checkURISyntax u = .ok r)
    (hsch : scanScheme r.scheme = .ok ())
    (hui : scanUserinfo (r.userinfo.getD []) = .ok ())
    (hauth : r.authority ≠ none)
    (hip : isIPOpt r.host = false) (hdom : isDomainOpt r.host = false) :
    checkURI u sm = .error ⟨"URI_INVALID_HOST"⟩ := by
  have hstage : authorityStage r = .error ⟨"URI_INVALID_HOST"⟩ := by
    unfold authorityStage
    rw [if_pos hauth]
    simp only [hui]
    rw [if_pos ⟨by simp [hip], by simp [hdom]⟩]
  cases u with
  | vstr s =>
    have hsyn' : checkURISyntaxCore (parseURI s) = .ok r := hsyn
    show checkURICore sm (parseURI s) = _
    unfold checkURICore
    simp only [hsyn', hsch, hstage]
  | vnum n => exact absurd hsyn (by simp [checkURISyntax])
  | vUndefined => exact absurd hsyn (by simp [checkURISyntax])
  | vother => exact absurd hsyn (by simp [checkURISyntax])

/-- C4 witness: `http://!!/` parses with host `!!`, which is neither an IP
nor a domain. -/
theorem checkURI_invalid_host_witness :
    checkURI (.vstr "http://!!/".data) false = .error ⟨"URI_INVALID_HOST"⟩ :=
  checkURI_invalid_host (.vstr "http://!!/".data) false
    { scheme := "http".data, authority := some "!!".data,
      authorityPunydecoded := some "!!".data, userinfo := none,
      host := some "!!".data, hostPunydecoded := some "!!".data, port := none,
      path := "/".data, pathqf := some "/".data, query := none, fragment := none,
      schemeLen := 4, valid := true }
    (by decide) (by decide) (by decide) (by decide) (by decide) (by decide)

/-- `charAt` at a natural index is plain list lookup. -/
theorem charAt_natCast (s : JStr) (i : Nat) : charAt s (i : Int) = s.get? i := by
  unfold charAt
  rw [if_neg (not_lt.mpr (Int.natCast_nonneg i))]
  simp

/-- A scan position holding a character other than `%` passes the
percent-encoding check with offset 0. -/
theorem checkPercentEncoding_not_pct (s : JStr) (i : Nat) (hi : i < s.length)
    (h : charAt s (i : Int) ≠ some '%') :
    checkPercentEncoding (.vstr s) (.vnum i) (.vnum s.length) = .ok 0 := by
  rw [checkPercentEncoding_norm s i s.length (Int.natCast_nonneg s.length)
    (by exact_mod_cast hi)]
  unfold percentCore
  rw [if_neg (by rintro ⟨-, hc⟩; exact h hc)]

/-- The indexed character from a `charAt` fact. -/
theorem getElem_of_charAt (s : JStr) (i : Nat) (hi : i < s.length) (c : Char)
    (h : charAt s (i : Int) = some c) : s[i] = c := by
  rw [charAt_natCast] at h
  rw [List.get?_eq_get hi] at h
  exact Option.some.inj h

/-- C7 counterexample: `http://example.com/a<b` carries the raw reserved XML
character `<` outside any escape sequence, but `checkSitemapURL` throws
`URI_INVALID_CHAR` — the URI-character check fires before the sitemap entity
check — not `URI_INVALID_SITEMAP_CHAR` as the claim states for every raw
reserved XML character. -/
theorem checkSitemapURL_rawLt_uriChar :
    checkSitemapURL (.vstr "http://example.com/a<b".data) =
      .error ⟨"URI_INVALID_CHAR"⟩ := by decide

/-- C7 (amended): in sitemap mode any `&` reached by the `pathqf` scan must
begin one of the five fixed escape sequences, else the scan throws
`URI_INVALID_SITEMAP_CHAR` (on a match the scan jumps over the escape:
`i += escapeOffset - 1` plus the loop increment); a raw apostrophe reached
outside an escape likewise throws `URI_INVALID_SITEMAP_CHAR`, while the raw
characters `<`, `>`, `"` are rejected by the preceding URI-character check
with `URI_INVALID_CHAR`; in particular `checkSitemapURL` fails with
`URI_INVALID_SITEMAP_CHAR` on `http://example.com/a&b` and succeeds on
`http://example.com/a&amp;b`. -/
theorem sitemap_escape_rule :
    (∀ (s : JStr) (fuel i : Nat), i < s.length → charAt s (i : Int) = some '&' →
       matchEscapeAt s i = none →
       scanPathqfGo true s (fuel + 1) i = .error ⟨"URI_INVALID_SITEMAP_CHAR"⟩) ∧
    (∀ (s : JStr) (fuel i elen : Nat), i < s.length → charAt s (i : Int) = some '&' →
       matchEscapeAt s i = some elen →
       scanPathqfGo true s (fuel + 1) i = scanPathqfGo true s fuel (i + elen - 1 + 1)) ∧
    (∀ (s : JStr) (fuel i : Nat), i < s.length → charAt s (i : Int) = some '\'' →
       scanPathqfGo true s (fuel + 1) i = .error ⟨"URI_INVALID_SITEMAP_CHAR"⟩) ∧
    (∀ (s : JStr) (fuel i : Nat) (c : Char), i < s.length → charAt s (i : Int) = some c →
       (c = '<' ∨ c = '>' ∨ c = '"') →
       scanPathqfGo true s (fuel + 1) i = .error ⟨"URI_INVALID_CHAR"⟩) ∧
    checkSitemapURL (.vstr "http://example.com/a&b".data) =
      .error ⟨"URI_INVALID_SITEMAP_CHAR"⟩ ∧
    exOk (checkSitemapURL (.vstr "http://example.com/a&amp;b".data)) = true := by
  refine ⟨?_, ?_, ?_, ?_, by decide, by decide⟩
  · intro s fuel i hi hamp hesc
    have hgi : s[i] = '&' := getElem_of_charAt s i hi '&' hamp
    have hp := checkPercentEncoding_not_pct s i hi (by rw [hamp]; decide)
    conv_lhs => unfold scanPathqfGo
    rw [dif_pos hi]
    rw [if_neg (by rw [hgi]; decide)]
    simp only [hp, Int.toNat_zero, Nat.add_zero, Nat.cast_zero, add_zero, if_true,
      hamp, hesc, beq_self_eq_true]
  · intro s fuel i elen hi hamp hesc
    have hgi : s[i] = '&' := getElem_of_charAt s i hi '&' hamp
    have hp := checkPercentEncoding_not_pct s i hi (by rw [hamp]; decide)
    conv_lhs => unfold scanPathqfGo
    rw [dif_pos hi]
    rw [if_neg (by rw [hgi]; decide)]
    simp only [hp, Int.toNat_zero, Nat.add_zero, Nat.cast_zero, add_zero, if_true,
      hamp, hesc, beq_self_eq_true]
  · intro s fuel i hi hapo
    have hgi : s[i] = '\'' := getElem_of_charAt s i hi '\'' hapo
    have hp := checkPercentEncoding_not_pct s i hi (by rw [hapo]; decide)
    conv_lhs => unfold scanPathqfGo
    rw [dif_pos hi]
    rw [if_neg (by rw [hgi]; decide)]
    simp only [hp, Int.toNat_zero, Nat.add_zero, Nat.cast_zero, add_zero, if_true,
      hapo]
    rw [if_neg (by decide), if_pos (by decide)]
  · intro s fuel i c hi hc hcs
    have hgi : s[i] = c := getElem_of_charAt s i hi c hc
    conv_lhs => unfold scanPathqfGo
    rw [dif_pos hi]
    rw [if_pos]
    rw [hgi]
    rcases hcs with h | h | h <;> (rw [h]; decide)

/-- C7 witness: the unmatched-ampersand conjunct at `a&b`, index 1. -/
theorem sitemap_escape_rule_witness :
    scanPathqfGo true "a&b".data 4 1 = .error ⟨"URI_INVALID_SITEMAP_CHAR"⟩ :=
  sitemap_escape_rule.1 "a&b".data 3 1 (by decide) (by decide) (by decide)

/-- Any error thrown by `checkPercentEncoding` carries
`URI_INVALID_PERCENT_ENCODING`. -/
theorem checkPercentEncoding_error_code (a b c : JSVal) (e : Err)
    (h : checkPercentEncoding a b c = .error e) :
    e.code = "URI_INVALID_PERCENT_ENCODING" := by
  cases a with
  | vstr s =>
    have h' : percentCore s (effIdx (effLen s c) b) (effLen s c) = .error e := h
    unfold percentCore at h'
    split at h'
    · split at h'
      · split at h'
        · injection h' with h2
          rw [← h2]
        · split at h'
          · injection h' with h2
            rw [← h2]
          · exact Except.noConfusion h'
      · injection h' with h2
        rw [← h2]
    · exact Except.noConfusion h'
  | vnum n =>
    injection h with h2
    rw [← h2]
  | vUndefined =>
    injection h with h2
    rw [← h2]
  | vother =>
    injection h with h2
    rw [← h2]

/-- Any error thrown by the scheme scan carries `URI_INVALID_SCHEME_CHAR`. -/
theorem scanSchemeGo_error_code (s : JStr) (fuel : Nat) :
    ∀ (i : Nat) (e : Err), scanSchemeGo s fuel i = .error e →
      e.code = "URI_INVALID_SCHEME_CHAR" := by
  induction fuel with
  | zero =>
    intro i e h
    exact Except.noConfusion h
  | succ fuel ih =>
    intro i e h
    unfold scanSchemeGo at h
    split at h
    · split at h
      · exact ih _ _ h
      · injection h with h2
        rw [← h2]
    · exact Except.noConfusion h

/-- Any error thrown by the userinfo scan carries `URI_INVALID_USERINFO_CHAR`
or `URI_INVALID_PERCENT_ENCODING`. -/
theorem scanUserinfoGo_error_code (s : JStr) (fuel : Nat) :
    ∀ (i : Nat) (e : Err), scanUserinfoGo s fuel i = .error e →
      e.code = "URI_INVALID_USERINFO_CHAR" ∨
      e.code = "URI_INVALID_PERCENT_ENCODING" := by
  induction fuel with
  | zero =>
    intro i e h
    exact Except.noConfusion h
  | succ fuel ih =>
    intro i e h
    unfold scanUserinfoGo at h
    split at h
    · split at h
      · left
        injection h with h2
        rw [← h2]
      · split at h
        · next e' heq =>
          injection h with h2
          rw [← h2]
          right
          exact checkPercentEncoding_error_code _ _ _ e' heq
        · exact ih _ _ h
    · exact Except.noConfusion h

/-- Any error thrown by the `pathqf` scan carries `URI_INVALID_CHAR`,
`URI_INVALID_PERCENT_ENCODING` or `URI_INVALID_SITEMAP_CHAR`. -/
theorem scanPathqfGo_error_code (sm : Bool) (s : JStr) (fuel : Nat) :
    ∀ (i : Nat) (e : Err), scanPathqfGo sm s fuel i = .error e →
      e.code = "URI_INVALID_CHAR" ∨
      e.code = "URI_INVALID_PERCENT_ENCODING" ∨
      e.code = "URI_INVALID_SITEMAP_CHAR" := by
  induction fuel with
  | zero =>
    intro i e h
    exact Except.noConfusion h
  | succ fuel ih =>
    intro i e h
    unfold scanPathqfGo at h
    split at h
    · split at h
      · left
        injection h with h2
        rw [← h2]
      · split at h
        · next e' heq =>
          injection h with h2
          rw [← h2]
          right
          left
          exact checkPercentEncoding_error_code _ _ _ e' heq
        · split at h
          · split at h
            · split at h
              · split at h
                · right
                  right
                  injection h with h2
                  rw [← h2]
                · exact ih _ _ h
              · split at h
                · right
                  right
                  injection h with h2
                  rw [← h2]
                · exact ih _ _ h
            · exact ih _ _ h
          · exact ih _ _ h
    · exact Except.noConfusion h

/-- Any error thrown by `checkURISyntaxCore` carries one of the five syntax
kinds. -/
theorem checkURISyntaxCore_error_code (c : URIComponents) (e : Err)
    (h : checkURISyntaxCore c = .error e) :
    e.code = "URI_MISSING_SCHEME" ∨ e.code = "URI_EMPTY_SCHEME" ∨
    e.code = "URI_MISSING_PATH" ∨ e.code = "URI_INVALID_PATH" ∨
    e.code = "URI_INVALID_HOST" := by
  unfold checkURISyntaxCore at h
  split at h
  · injection h with h2
    rw [← h2]
    simp
  · split at h
    · injection h with h2
      rw [← h2]
      simp
    · split at h
      · injection h with h2
        rw [← h2]
        simp
      · split at h
        · split at h
          · injection h with h2
            rw [← h2]
            simp
          · have := syntaxTail_error_code _ _ _ _ h
            simp [this]
        · split at h
          · injection h with h2
            rw [← h2]
            simp
          · have := syntaxTail_error_code _ _ _ _ h
            simp [this]

/-- Any error thrown by the authority stage carries
`URI_INVALID_USERINFO_CHAR`, `URI_INVALID_PERCENT_ENCODING`,
`URI_INVALID_HOST` or `URI_INVALID_PORT`. -/
theorem authorityStage_error_code (r : SyntaxResult) (e : Err)
    (h : authorityStage r = .error e) :
    e.code = "URI_INVALID_USERINFO_CHAR" ∨
    e.code = "URI_INVALID_PERCENT_ENCODING" ∨
    e.code = "URI_INVALID_HOST" ∨ e.code = "URI_INVALID_PORT" := by
  unfold authorityStage at h
  split at h
  · split at h
    · next e' heq =>
      injection h with h2
      rw [← h2]
      rcases scanUserinfoGo_error_code _ _ _ e' heq with h3 | h3
      · simp [h3]
      · simp [h3]
    · split at h
      · injection h with h2
        rw [← h2]
        simp
      · split at h
        · split at h
          · injection h with h2
            rw [← h2]
            simp
          · exact Except.noConfusion h
        · exact Except.noConfusion h
  · exact Except.noConfusion h

/-- Any error thrown by `checkURICore` carries a code from the enumerated
set. -/
theorem checkURICore_error_code (sm : Bool) (c : URIComponents) (e : Err)
    (h : checkURICore sm c = .error e) : e.code ∈ errorCodes := by
  unfold checkURICore at h
  split at h
  · next e' heq =>
    injection h with h2
    rw [← h2]
    rcases checkURISyntaxCore_error_code _ e' heq with h3 | h3 | h3 | h3 | h3 <;>
      simp [errorCodes, h3]
  · split at h
    · next e' heq =>
      injection h with h2
      rw [← h2]
      have h3 := scanSchemeGo_error_code _ _ _ e' heq
      simp [errorCodes, h3]
    · split at h
      · next e' heq =>
        injection h with h2
        rw [← h2]
        rcases authorityStage_error_code _ e' heq with h3 | h3 | h3 | h3 <;>
          simp [errorCodes, h3]
      · split at h
        · next e' heq =>
          injection h with h2
          rw [← h2]
          rcases scanPathqfGo_error_code _ _ _ _ e' heq with h3 | h3 | h3 <;>
            simp [errorCodes, h3]
        · exact Except.noConfusion h

/-- Any error thrown by `checkHttpURLCore` carries a code from the
enumerated set. -/
theorem checkHttpURLCore_error_code (o : HttpOpts) (c : URIComponents) (e : Err)
    (h : checkHttpURLCore o c = .error e) : e.code ∈ errorCodes := by
  unfold checkHttpURLCore at h
  split at h
  · next e' heq =>
    injection h with h2
    rw [← h2]
    exact checkURICore_error_code _ _ e' heq
  · split at h
    · injection h with h2
      rw [← h2]
      simp [errorCodes]
    · split at h
      · injection h with h2
        rw [← h2]
        simp [errorCodes]
      · exact Except.noConfusion h

/-- A success of `syntaxTail` carries `valid = true`. -/
theorem syntaxTail_valid (c : URIComponents) (sch p : JStr) (r : SyntaxResult)
    (h : syntaxTail c sch p = .ok r) : r.valid = true := by
  unfold syntaxTail at h
  split at h
  · exact Except.noConfusion h
  · injection h with h2
    rw [← h2]

/-- A success of `checkURISyntaxCore` carries `valid = true`. -/
theorem checkURISyntaxCore_valid (c : URIComponents) (r : SyntaxResult)
    (h : checkURISyntaxCore c = .ok r) : r.valid = true := by
  unfold checkURISyntaxCore at h
  split at h
  · exact Except.noConfusion h
  · split at h
    · exact Except.noConfusion h
    · split at h
      · exact Except.noConfusion h
      · split at h
        · split at h
          · exact Except.noConfusion h
          · exact syntaxTail_valid _ _ _ _ h
        · split at h
          · exact Except.noConfusion h
          · exact syntaxTail_valid _ _ _ _ h

/-- A success of `checkURICore` carries `valid = true`. -/
theorem checkURICore_valid (sm : Bool) (c : URIComponents) (r : CheckResult)
    (h : checkURICore sm c = .ok r) : r.valid = true := by
  unfold checkURICore at h
  split at h
  · exact Except.noConfusion h
  · split at h
    · exact Except.noConfusion h
    · split at h
      · exact Except.noConfusion h
      · split at h
        · exact Except.noConfusion h
        · injection h with h2
          rw [← h2]
          rfl

/-- A success of `checkHttpURLCore` carries `valid = true`. -/
theorem checkHttpURLCore_valid (o : HttpOpts) (c : URIComponents) (r : CheckResult)
    (h : checkHttpURLCore o c = .ok r) : r.valid = true := by
  unfold checkHttpURLCore at h
  split at h
  · exact Except.noConfusion h
  · next r' heq =>
    split at h
    · exact Except.noConfusion h
    · split at h
      · exact Except.noConfusion h
      · injection h with h2
        rw [← h2]
        exact checkURICore_valid _ _ _ heq

/-- C8: every checker — `checkURISyntax`, `checkURI`, `checkHttpURL` and the
five aliases — either returns its success record with `valid = true` or
throws an error whose code belongs to the enumerated set (never a partial
record); the freezing of the returned JavaScript object corresponds to the
immutability of the embedded value. -/
theorem checker_contract :
    (∀ (u : JSVal) (r : SyntaxResult), checkURISyntax u = .ok r → r.valid = true) ∧
    (∀ (u : JSVal) (e : Err), checkURISyntax u = .error e → e.code ∈ errorCodes) ∧
    (∀ (u : JSVal) (sm : Bool) (r : CheckResult), checkURI u sm = .ok r → r.valid = true) ∧
    (∀ (u : JSVal) (sm : Bool) (e : Err), checkURI u sm = .error e → e.code ∈ errorCodes) ∧
    (∀ (u : JSVal) (o : HttpOpts) (r : CheckResult), checkHttpURL u o = .ok r → r.valid = true) ∧
    (∀ (u : JSVal) (o : HttpOpts) (e : Err), checkHttpURL u o = .error e → e.code ∈ errorCodes) ∧
    (∀ (u : JSVal) (r : CheckResult),
       checkHttpsURL u = .ok r ∨ checkHttpSitemapURL u = .ok r ∨
       checkHttpsSitemapURL u = .ok r ∨ checkWebURL u = .ok r ∨
       checkSitemapURL u = .ok r → r.valid = true) ∧
    (∀ (u : JSVal) (e : Err),
       checkHttpsURL u = .error e ∨ checkHttpSitemapURL u = .error e ∨
       checkHttpsSitemapURL u = .error e ∨ checkWebURL u = .error e ∨
       checkSitemapURL u = .error e → e.code ∈ errorCodes) := by
  have hsynV : ∀ (u : JSVal) (r : SyntaxResult), checkURISyntax u = .ok r → r.valid = true := by
    intro u r h
    cases u with
    | vstr s => exact checkURISyntaxCore_valid _ _ h
    | vnum n => exact Except.noConfusion h
    | vUndefined => exact Except.noConfusion h
    | vother => exact Except.noConfusion h
  have hsynE : ∀ (u : JSVal) (e : Err), checkURISyntax u = .error e → e.code ∈ errorCodes := by
    intro u e h
    cases u with
    | vstr s =>
      rcases checkURISyntaxCore_error_code _ e h with h3 | h3 | h3 | h3 | h3 <;>
        simp [errorCodes, h3]
    | vnum n =>
      injection h with h2
      rw [← h2]
      simp [errorCodes]
    | vUndefined =>
      injection h with h2
      rw [← h2]
      simp [errorCodes]
    | vother =>
      injection h with h2
      rw [← h2]
      simp [errorCodes]
  have huriV : ∀ (u : JSVal) (sm : Bool) (r : CheckResult), checkURI u sm = .ok r → r.valid = true := by
    intro u sm r h
    cases u with
    | vstr s => exact checkURICore_valid _ _ _ h
    | vnum n => exact Except.noConfusion h
    | vUndefined => exact Except.noConfusion h
    | vother => exact Except.noConfusion h
  have huriE : ∀ (u : JSVal) (sm : Bool) (e : Err), checkURI u sm = .error e → e.code ∈ errorCodes := by
    intro u sm e h
    cases u with
    | vstr s => exact checkURICore_error_code _ _ e h
    | vnum n =>
      injection h with h2
      rw [← h2]
      simp [errorCodes]
    | vUndefined =>
      injection h with h2
      rw [← h2]
      simp [errorCodes]
    | vother =>
      injection h with h2
      rw [← h2]
      simp [errorCodes]
  have hhttpV : ∀ (u : JSVal) (o : HttpOpts) (r : CheckResult), checkHttpURL u o = .ok r → r.valid = true := by
    intro u o r h
    cases u with
    | vstr s => exact checkHttpURLCore_valid _ _ _ h
    | vnum n => exact Except.noConfusion h
    | vUndefined => exact Except.noConfusion h
    | vother => exact Except.noConfusion h
  have hhttpE : ∀ (u : JSVal) (o : HttpOpts) (e : Err), checkHttpURL u o = .error e → e.code ∈ errorCodes := by
    intro u o e h
    cases u with
    | vstr s => exact checkHttpURLCore_error_code _ _ e h
    | vnum n =>
      injection h with h2
      rw [← h2]
      simp [errorCodes]
    | vUndefined =>
      injection h with h2
      rw [← h2]
      simp [errorCodes]
    | vother =>
      injection h with h2
      rw [← h2]
      simp [errorCodes]
  refine ⟨hsynV, hsynE, huriV, huriE, hhttpV, hhttpE, ?_, ?_⟩
  · intro u r h
    rcases h with h | h | h | h | h <;> exact hhttpV u _ r h
  · intro u e h
    rcases h with h | h | h | h | h <;> exact hhttpE u _ e h

/-- C8 witness: the error conjunct applied to the non-string input
`undefined`, whose thrown `URI_INVALID_TYPE` is in the enumerated set. -/
theorem checker_contract_witness :
    Err.code ⟨"URI_INVALID_TYPE"⟩ ∈ errorCodes :=
  checker_contract.2.1 .vUndefined ⟨"URI_INVALID_TYPE"⟩ rfl

end NodeUri
